import Mathlib

/-!
Verification of the `auro_report_bot` report-generation pipeline.

The Rust source is shallowly embedded: `serde_json::Value` becomes the
inductive `Json` (numbers modelled exactly as rationals), network calls are
passed in as explicit outcomes (`Except` values or a page oracle), and
chrono's civil-calendar arithmetic is modelled with the standard
days-from-civil / civil-from-days algorithms.  `Europe/Moscow` is modelled as
the fixed offset UTC+3 (its rule since 2014).
-/

/-- Model of `serde_json::Value`.  Numbers are modelled exactly as rationals
(`serde_json::Number` holds `u64`/`i64`/`f64`; all are rational). -/
inductive Json where
  | null : Json
  | bool : Bool → Json
  | num : ℚ → Json
  | str : String → Json
  | arr : List Json → Json
  | obj : List (String × Json) → Json

/-- `Value::as_str`. -/
def Json.asStr : Json → Option String
  | .str s => some s
  | _ => none

/-- `Value::as_object` (the object's field list, first-key lookup wins). -/
def Json.asObj : Json → Option (List (String × Json))
  | .obj fields => some fields
  | _ => none

/-- `Value::as_f64`: every `serde_json::Number` yields a value. -/
def Json.asF64 : Json → Option ℚ
  | .num q => some q
  | _ => none

/-- `Map::get` on a JSON object: first binding of the key. -/
def getField (fields : List (String × Json)) (key : String) : Option Json :=
  match fields with
  | [] => none
  | (k, v) :: rest => if k = key then some v else getField rest key

/-- `HashMap::contains_key` for the club-name map. -/
def containsKey (m : List (String × String)) (key : String) : Bool :=
  match m with
  | [] => false
  | (k, _) :: rest => k = key || containsKey rest key

/-- `HashMap::get` for the club-name map. -/
def lookupName (m : List (String × String)) (key : String) : Option String :=
  match m with
  | [] => none
  | (k, v) :: rest => if k = key then some v else lookupName rest key

/-! ### Decimal number parsing and formatting

Models `str::parse::<f64>()` (finite decimal forms with optional sign,
fraction and exponent; the `inf`/`NaN` forms are not modelled) and
`f64::to_string`/`Number::to_string` for the integral values the code
actually renders. -/

/-- Value of a non-empty digit string. -/
def digitsVal (l : List Char) : Nat :=
  l.foldl (fun a c => 10 * a + (c.toNat - 48)) 0

/-- A non-empty string of ASCII digits. -/
def isDigits (l : List Char) : Bool :=
  !l.isEmpty && l.all Char.isDigit

/-- Split a character list at every occurrence of `sep` (model of
`String::splitOn` for a one-character separator). -/
def splitOnChar (sep : Char) : List Char → List (List Char)
  | [] => [[]]
  | c :: rest =>
      let r := splitOnChar sep rest
      if c = sep then [] :: r
      else
        match r with
        | h :: t => (c :: h) :: t
        | [] => [[c]]

/-- `String` wrapper of `splitOnChar`. -/
def splitString (sep : Char) (s : String) : List String :=
  (splitOnChar sep s.data).map String.mk

/-- `str::trim`: strip leading and trailing whitespace. -/
def trimAscii (s : String) : String :=
  ⟨(((s.data.dropWhile Char.isWhitespace).reverse).dropWhile Char.isWhitespace).reverse⟩

/-- The mantissa of a decimal literal: `digits`, `digits.`, `digits.digits`
or `.digits`. -/
def parseUnsignedMantissa (s : String) : Option ℚ :=
  match splitString '.' s with
  | [a] => if isDigits a.data then some (digitsVal a.data) else none
  | [a, b] =>
      if isDigits a.data && (b.isEmpty || isDigits b.data) then
        some ((digitsVal a.data : ℚ) + (digitsVal b.data : ℚ) / ((10 : ℚ) ^ b.length))
      else if a.isEmpty && isDigits b.data then
        some ((digitsVal b.data : ℚ) / ((10 : ℚ) ^ b.length))
      else none
  | _ => none

/-- `str::parse::<f64>()`, modelled exactly over the rationals. -/
def parseF64 (s : String) : Option ℚ :=
  let (sgn, body) : ℚ × List Char :=
    match s.data with
    | '+' :: rest => (1, rest)
    | '-' :: rest => (-1, rest)
    | l => (1, l)
  match splitOnChar 'e' (body.map Char.toLower) with
  | [m] => (parseUnsignedMantissa ⟨m⟩).map (fun q => sgn * q)
  | [m, e] =>
      match parseUnsignedMantissa ⟨m⟩ with
      | none => none
      | some mv =>
          let (epos, ebody) : Bool × List Char :=
            match e with
            | '+' :: rest => (true, rest)
            | '-' :: rest => (false, rest)
            | l => (true, l)
          if isDigits ebody then
            let ev := digitsVal ebody
            some (sgn * mv * (if epos then (10 : ℚ) ^ ev else ((10 : ℚ) ^ ev)⁻¹))
          else none
  | _ => none

/-- `ToString` for JSON numbers (`serde_json::Number::to_string` /
`f64::to_string`): integral values render as plain integers; non-integral
values are rendered as `num/den` (an approximation of Rust's shortest-float
formatting, which no claim exercises on non-integral values). -/
def numToString (q : ℚ) : String :=
  if q.den = 1 then toString q.num else toString q

/-- `str::trim_end_matches('%')`: strip every trailing `%`. -/
def trimEndPercent (s : String) : String :=
  ⟨(s.data.reverse.dropWhile (fun c => c = '%')).reverse⟩

/-! ### Civil-calendar arithmetic (model of chrono)

Day numbers count days since 1970-01-01; instants are UTC epoch seconds.
`civilToDays`/`daysToCivil` are the standard era-based algorithms that
chrono's calendar arithmetic implements. -/

/-- Proleptic-Gregorian leap year. -/
def isLeapYear (y : Int) : Bool :=
  (y % 4 = 0 && y % 100 ≠ 0) || y % 400 = 0

/-- Length of a month. -/
def daysInMonth (y : Int) (m : Nat) : Nat :=
  match m with
  | 1 => 31 | 2 => if isLeapYear y then 29 else 28
  | 3 => 31 | 4 => 30 | 5 => 31 | 6 => 30
  | 7 => 31 | 8 => 31 | 9 => 30 | 10 => 31
  | 11 => 30 | 12 => 31
  | _ => 0

/-- Days since 1970-01-01 of the civil date `y-m-d` (days-from-civil). -/
def civilToDays (y m d : Int) : Int :=
  let y2 : Int := if m ≤ 2 then y - 1 else y
  let era : Int := y2 / 400
  let yoe : Int := y2 - era * 400
  let mp : Int := if m ≤ 2 then m + 9 else m - 3
  let doy : Int := (153 * mp + 2) / 5 + d - 1
  let doe : Int := yoe * 365 + yoe / 4 - yoe / 100 + doy
  era * 146097 + doe - 719468

/-- Civil date `(y, m, d)` of a day number (civil-from-days). -/
def daysToCivil (z0 : Int) : Int × Int × Int :=
  let z : Int := z0 + 719468
  let era : Int := z / 146097
  let doe : Int := z - era * 146097
  let yoe : Int := (doe - doe / 1460 + doe / 36524 - doe / 146096) / 365
  let y : Int := yoe + era * 400
  let doy : Int := doe - (365 * yoe + yoe / 4 - yoe / 100)
  let mp : Int := (5 * doy + 2) / 153
  let d : Int := doy - (153 * mp + 2) / 5 + 1
  let m : Int := if mp < 10 then mp + 3 else mp - 9
  (if m ≤ 2 then y + 1 else y, m, d)

/-- UTC epoch seconds of a civil datetime read in UTC. -/
def civilToEpoch (y m d h mi s : Int) : Int :=
  civilToDays y m d * 86400 + h * 3600 + mi * 60 + s

/-- Europe/Moscow modelled as fixed UTC+3 (its rule since 2014). -/
def moscowOffsetSeconds : Int := 10800

/-- Left-pad a natural number's digits to width 2. -/
def pad2 (n : Int) : String :=
  let s := toString n
  if s.length < 2 then "0" ++ s else s

/-- Left-pad to width 4 (chrono `%Y`). -/
def pad4 (n : Int) : String :=
  let s := toString n
  if s.length ≥ 4 then s
  else String.mk (List.replicate (4 - s.length) '0') ++ s

/-! ### Timestamp parsing (model of chrono `parse_from_str`)

Two formats appear in the source: the naive `"%Y-%m-%d %H:%M:%S"` (full
string consumed, fields validated) and the offset-qualified
`"%Y-%m-%d %H:%M:%S%z"` (offset `±HHMM` or `±HH:MM`). -/

/-- Parse a non-empty all-digit string. -/
def parseNatDigits (s : String) : Option Nat :=
  if isDigits s.data then some (digitsVal s.data) else none

/-- Parse `"YYYY-MM-DD"` with calendar validation. -/
def parseDatePart (s : String) : Option (Int × Int × Int) :=
  match splitString '-' s with
  | [ys, ms, ds] =>
      match parseNatDigits ys, parseNatDigits ms, parseNatDigits ds with
      | some y, some m, some d =>
          if 1 ≤ m ∧ m ≤ 12 ∧ 1 ≤ d ∧ d ≤ daysInMonth (y : Int) m then
            some ((y : Int), (m : Int), (d : Int))
          else none
      | _, _, _ => none
  | _ => none

/-- Parse `"HH:MM:SS"` with range validation. -/
def parseTimePart (s : String) : Option (Int × Int × Int) :=
  match splitString ':' s with
  | [hs, ms, ss] =>
      match parseNatDigits hs, parseNatDigits ms, parseNatDigits ss with
      | some h, some mi, some sec =>
          if h ≤ 23 ∧ mi ≤ 59 ∧ sec ≤ 59 then
            some ((h : Int), (mi : Int), (sec : Int))
          else none
      | _, _, _ => none
  | _ => none

/-- Parse a `%z` offset: sign then `HHMM` or `HH:MM`; seconds east of UTC. -/
def parseOffsetPart (s : String) : Option Int :=
  let signedBody : Option (Int × List Char) :=
    match s.data with
    | '+' :: rest => some (1, rest)
    | '-' :: rest => some (-1, rest)
    | _ => none
  match signedBody with
  | none => none
  | some (sgn, body) =>
      let hm : Option (Nat × Nat) :=
        match splitOnChar ':' body with
        | [hs, ms] =>
            match parseNatDigits ⟨hs⟩, parseNatDigits ⟨ms⟩ with
            | some h, some m => if hs.length = 2 ∧ ms.length = 2 then some (h, m) else none
            | _, _ => none
        | [hms] =>
            if hms.length = 4 then
              match parseNatDigits ⟨hms.take 2⟩, parseNatDigits ⟨hms.drop 2⟩ with
              | some h, some m => some (h, m)
              | _, _ => none
            else none
        | _ => none
      match hm with
      | some (h, m) => if h ≤ 23 ∧ m ≤ 59 then some (sgn * ((h : Int) * 3600 + (m : Int) * 60)) else none
      | none => none

/-- `NaiveDateTime::parse_from_str(s, "%Y-%m-%d %H:%M:%S")`, then
`DateTime::<Utc>::from_naive_utc_and_offset`: the instant, read as UTC. -/
def parseNaiveUtc (s : String) : Option Int :=
  match splitString ' ' s with
  | [dp, tp] =>
      match parseDatePart dp, parseTimePart tp with
      | some (y, m, d), some (h, mi, sec) => some (civilToEpoch y m d h mi sec)
      | _, _ => none
  | _ => none

/-- Split a character list at the first `+`/`-` sign. -/
def splitAtSign (l : List Char) : Option (List Char × List Char) :=
  match l.findIdx? (fun c => c = '+' || c = '-') with
  | some i => some (l.take i, l.drop i)
  | none => none

/-- `DateTime::parse_from_str(s, "%Y-%m-%d %H:%M:%S%z")`: the UTC instant
(the parsed offset is subtracted out). -/
def parseWithTz (s : String) : Option Int :=
  match splitString ' ' s with
  | [dp, tof] =>
      match splitAtSign tof.data with
      | some (tchars, ochars) =>
          match parseDatePart dp, parseTimePart ⟨tchars⟩, parseOffsetPart ⟨ochars⟩ with
          | some (y, m, d), some (h, mi, sec), some off =>
              some (civilToEpoch y m d h mi sec - off)
          | _, _, _ => none
      | none => none
  | _ => none

/-- Format an epoch instant at fixed offset `off` as `"YYYY-MM-DD HH:MM:SS"`. -/
def formatCivil (off t : Int) : String :=
  let loc := t + off
  let day := loc / 86400
  let sod := loc - day * 86400
  let ymd := daysToCivil day
  pad4 ymd.1 ++ "-" ++ pad2 ymd.2.1 ++ "-" ++ pad2 ymd.2.2 ++ " " ++
    pad2 (sod / 3600) ++ ":" ++ pad2 (sod / 60 % 60) ++ ":" ++ pad2 (sod % 60)

/-! ## date_utils.rs -/

/-- `date_utils::DateRange`.  `start`/`stop` are UTC epoch seconds (the Rust
field `end` is a Lean keyword, so it is modelled as `stop`). -/
structure DateRange where
  start : Int
  stop : Int
  label : String

/-- `date_utils::Period`. -/
inductive Period where
  | Today | Yesterday | Week | Month | Quarter | HalfYear | Year

/-- The current instant as chrono presents it after
`Moscow.from_utc_datetime(&Utc::now().naive_utc())`: civil fields in the
Moscow timezone. -/
structure MoscowNow where
  year : Int
  month : Int
  day : Int
  hour : Int
  minute : Int
  second : Int

/-- A well-formed civil datetime (what `Utc::now()` always delivers). -/
def MoscowNow.Valid (n : MoscowNow) : Prop :=
  1 ≤ n.month ∧ n.month ≤ 12 ∧ 1 ≤ n.day ∧ n.day ≤ daysInMonth n.year n.month.toNat ∧
    0 ≤ n.hour ∧ n.hour ≤ 23 ∧ 0 ≤ n.minute ∧ n.minute ≤ 59 ∧ 0 ≤ n.second ∧ n.second ≤ 59

instance (n : MoscowNow) : Decidable n.Valid := by
  unfold MoscowNow.Valid; infer_instance

/-- `Moscow.from_local_datetime(..).unwrap().with_timezone(&Utc)`: a Moscow
civil datetime (day number plus time of day) as a UTC instant. -/
def mskToUtc (day h mi s : Int) : Int :=
  day * 86400 + h * 3600 + mi * 60 + s - moscowOffsetSeconds

/-- chrono's `%d.%m.%Y` of the civil date of a day number. -/
def formatDMY (day : Int) : String :=
  let c := daysToCivil day
  pad2 c.2.2 ++ "." ++ pad2 c.2.1 ++ "." ++ pad4 c.1

/-- chrono's `%B` (English month names in the default locale). -/
def monthName (m : Int) : String :=
  match m with
  | 1 => "January" | 2 => "February" | 3 => "March" | 4 => "April"
  | 5 => "May" | 6 => "June" | 7 => "July" | 8 => "August"
  | 9 => "September" | 10 => "October" | 11 => "November" | 12 => "December"
  | _ => ""

/-- `Datelike::weekday().num_days_from_monday()` of a day number
(day 0 = 1970-01-01 was a Thursday, index 3). -/
def numDaysFromMonday (day : Int) : Int :=
  (day + 3) % 7

/-- `Period::get_date_range`, with the ambient `Utc::now()` made an explicit
Moscow-civil argument. -/
def Period.get_date_range (p : Period) (now : MoscowNow) : DateRange :=
  let nowDays := civilToDays now.year now.month now.day
  match p with
  | .Today =>
      { start := mskToUtc nowDays 0 0 0,
        stop := mskToUtc nowDays 23 59 59,
        label := "Сегодня (" ++ formatDMY nowDays ++ ")" }
  | .Yesterday =>
      { start := mskToUtc (nowDays - 1) 0 0 0,
        stop := mskToUtc (nowDays - 1) 23 59 59,
        label := "Вчера (" ++ formatDMY (nowDays - 1) ++ ")" }
  | .Week =>
      let startOfWeek := nowDays - numDaysFromMonday nowDays
      { start := mskToUtc startOfWeek 0 0 0,
        stop := mskToUtc nowDays 23 59 59,
        label := "Текущая неделя (" ++ formatDMY startOfWeek ++ " - " ++ formatDMY nowDays ++ ")" }
  | .Month =>
      { start := mskToUtc (civilToDays now.year now.month 1) 0 0 0,
        stop := mskToUtc nowDays 23 59 59,
        label := "Текущий месяц (" ++ monthName now.month ++ " " ++ pad4 now.year ++ ")" }
  | .Quarter =>
      let quarterStartMonth := ((now.month - 1) / 3) * 3 + 1
      let quarterNum := (quarterStartMonth - 1) / 3 + 1
      { start := mskToUtc (civilToDays now.year quarterStartMonth 1) 0 0 0,
        stop := mskToUtc nowDays 23 59 59,
        label := "Q" ++ toString quarterNum ++ " " ++ pad4 now.year }
  | .HalfYear =>
      let halfStartMonth : Int := if now.month ≤ 6 then 1 else 7
      let halfNum : Int := if halfStartMonth = 1 then 1 else 2
      { start := mskToUtc (civilToDays now.year halfStartMonth 1) 0 0 0,
        stop := mskToUtc nowDays 23 59 59,
        label := "Полугодие " ++ toString halfNum ++ " (" ++ pad4 now.year ++ ")" }
  | .Year =>
      { start := mskToUtc (civilToDays now.year 1 1) 0 0 0,
        stop := mskToUtc nowDays 23 59 59,
        label := "Текущий год (" ++ pad4 now.year ++ ")" }

/-! ## nocodb.rs -/

/-- Loop body of `NocoDBClient::fetch_records`.  The network is abstracted
into `page : offset ↦ record array of the response at that offset`; `fuel`
bounds the number of round trips (`none` = the loop has not finished within
`fuel` pages, i.e. non-termination of the Rust loop). -/
def fetch_records_go (page : Nat → List Json) : Nat → Nat → List Json → Option (List Json)
  | 0, _, _ => none
  | fuel + 1, offset, all_records =>
      let records := page offset
      let acc := all_records ++ records
      if records.length < 100 then some acc
      else fetch_records_go page fuel (offset + 100) acc

/-- `NocoDBClient::fetch_records`: paginated listing, page size 100, starting
at offset 0. -/
def fetch_records (page : Nat → List Json) (fuel : Nat) : Option (List Json) :=
  fetch_records_go page fuel 0 []

/-! ## report_service.rs: period fetch with client-side fallback -/

/-- chrono's `%Y-%m-%d %H:%M` of a UTC instant (used for the server filter). -/
def formatYmdHm (t : Int) : String :=
  let day := t / 86400
  let sod := t - day * 86400
  let ymd := daysToCivil day
  pad4 ymd.1 ++ "-" ++ pad2 ymd.2.1 ++ "-" ++ pad2 ymd.2.2 ++ " " ++
    pad2 (sod / 3600) ++ ":" ++ pad2 (sod / 60 % 60)

/-- The `where` filter string built by `fetch_data_for_period`. -/
def period_filter (date_field_name : String) (range : DateRange) : String :=
  "(" ++ date_field_name ++ ",ge,exactDate," ++ formatYmdHm range.start ++
    ")~and(" ++ date_field_name ++ ",le,exactDate," ++ formatYmdHm range.stop ++ ")"

/-- The client-side filter predicate of `fetch_data_for_period`'s fallback
branch: read the configured date field as a string, parse it first as a naive
UTC timestamp and otherwise as an offset-qualified one, and keep the record
when the instant lies in `[start, stop]`. -/
def record_in_range (date_field_name : String) (range : DateRange) (record : Json) : Bool :=
  match record.asObj with
  | some obj =>
      match (getField obj date_field_name).bind Json.asStr with
      | some date_str =>
          match parseNaiveUtc date_str with
          | some t => range.start ≤ t && t ≤ range.stop
          | none =>
              match parseWithTz date_str with
              | some t => range.start ≤ t && t ≤ range.stop
              | none => false
      | none => false
  | none => false

/-- `ReportService::fetch_data_for_period`.  The two network calls are passed
in as their outcomes: `filteredOutcome` is the result of
`fetch_records_filtered(period_filter ..)` and `allOutcome` the result of
`fetch_records()` (only consulted on the fallback path). -/
def fetch_data_for_period (date_field_name : String) (range : DateRange)
    (filteredOutcome : Except String (List Json))
    (allOutcome : Except String (List Json)) : Except String (List Json) :=
  match filteredOutcome with
  | .ok records => .ok records
  | .error _ =>
      match allOutcome with
      | .error e => .error e
      | .ok all_records => .ok (all_records.filter (record_in_range date_field_name range))

/-- `ReportService::get_filename_suffix`: chrono's `%Y%m%d` of `range.start`
in UTC. -/
def get_filename_suffix (range : DateRange) : String :=
  let c := daysToCivil (range.start / 86400)
  pad4 c.1 ++ pad2 c.2.1 ++ pad2 c.2.2

/-- The CSV output path built by `generate_report` / `generate_csv_report`. -/
def csv_filename (output_dir : String) (range : DateRange) : String :=
  output_dir ++ "/report_" ++ get_filename_suffix range ++ ".csv"

/-- The PDF output path built by `generate_report` / `generate_pdf_report`. -/
def pdf_filename (output_dir : String) (range : DateRange) : String :=
  output_dir ++ "/report_" ++ get_filename_suffix range ++ ".pdf"

/-! ## report_service.rs: aggregation

`serde_json::from_str::<Value>` (used to re-parse a `text_aura` string as
embedded JSON) is abstracted into a parameter `jsonParse`; every theorem below
holds for an arbitrary parser. -/

/-- The percent-field handling that `extract_percent_value` repeats at each
extraction site: a string percent is trimmed, stripped of trailing `%` and
parsed (an early return even when the parse fails); a numeric percent is
taken directly; any other shape falls through (`none`). -/
def percentFieldValue (percent : Json) : Option (Option ℚ) :=
  match percent.asStr with
  | some percent_str => some (parseF64 (trimEndPercent (trimAscii percent_str)))
  | none =>
      match percent.asF64 with
      | some percent_num => some (some percent_num)
      | none => none

/-- The `text_aura` stage of `extract_percent_value` (lines 306-333 of
`report_service.rs`): `some r` models a Rust early `return r`; `none` is the
fall-through to the `aura` fallback. -/
def textAuraValue (jsonParse : String → Option Json)
    (record : List (String × Json)) : Option (Option ℚ) :=
  match getField record "text_aura" with
  | none => none
  | some text_aura =>
      match text_aura.asObj with
      | some aura_obj =>
          match getField aura_obj "percent" with
          | some percent => percentFieldValue percent
          | none => none
      | none =>
          match text_aura.asStr with
          | some aura_str =>
              if aura_str.isEmpty then none
              else
                match jsonParse aura_str with
                | some parsed =>
                    match parsed.asObj with
                    | some pobj =>
                        match getField pobj "percent" with
                        | some percent => percentFieldValue percent
                        | none => none
                    | none => none
                | none => none
          | none => none

/-- The `aura`-field fallback stage of `extract_percent_value` (lines 336-347
of `report_service.rs`). -/
def auraFallbackValue (record : List (String × Json)) : Option ℚ :=
  match getField record "aura" with
  | some aura =>
      match aura.asObj with
      | some aura_obj =>
          match getField aura_obj "percent" with
          | some percent =>
              match percentFieldValue percent with
              | some r => r
              | none => none
          | none => none
      | none => none
  | none => none

/-- `ReportService::extract_percent_value`. -/
def extract_percent_value (jsonParse : String → Option Json)
    (record : List (String × Json)) : Option ℚ :=
  match textAuraValue jsonParse record with
  | some r => r
  | none => auraFallbackValue record

/-- `report_service::ClubStats` (`percentage` modelled exactly as a rational). -/
structure ClubStats where
  club_id : String
  club_name : String
  total_generations : Nat
  unique_clients : Nat
  percentage : ℚ
deriving DecidableEq

/-- `report_service::ReportStats`. -/
structure ReportStats where
  total_records : Nat
  unique_clients : Nat
  low_aura : Nat
  normal_aura : Nat
  high_aura : Nat
  club_stats : List ClubStats
  avg_generation_time : ℚ
deriving DecidableEq

/-- The mutable loop state of `calculate_stats`.  `HashSet`/`HashMap` are
modelled as duplicate-free lists / association lists in insertion order. -/
structure StatsAcc where
  unique_phones : List String
  low_aura : Nat
  normal_aura : Nat
  high_aura : Nat
  club_generations : List (String × Nat)
  club_unique_phones : List (String × List String)
  total_generation_time : ℚ
  generation_time_count : Nat
deriving DecidableEq

/-- The initial loop state. -/
def initAcc : StatsAcc := ⟨[], 0, 0, 0, [], [], 0, 0⟩

/-- `HashSet::insert`. -/
def insertSet (x : String) (s : List String) : List String :=
  if s.contains x then s else x :: s

/-- `*map.entry(key).or_insert(0) += 1`. -/
def incrAssoc (l : List (String × Nat)) (key : String) : List (String × Nat) :=
  match l with
  | [] => [(key, 1)]
  | (k, v) :: rest => if k = key then (k, v + 1) :: rest else (k, v) :: incrAssoc rest key

/-- `map.entry(key).or_insert_with(HashSet::new).insert(phone)`. -/
def addPhone (l : List (String × List String)) (key phone : String) :
    List (String × List String) :=
  match l with
  | [] => [(key, [phone])]
  | (k, v) :: rest =>
      if k = key then (k, insertSet phone v) :: rest else (k, v) :: addPhone rest key phone

/-- Association lookup in the per-club phone-set map. -/
def lookupSet (l : List (String × List String)) (key : String) : Option (List String) :=
  match l with
  | [] => none
  | (k, v) :: rest => if k = key then some v else lookupSet rest key

/-- The `phone` coercion of `calculate_stats`: number or string to string,
anything else (or absence) to the empty string. -/
def phoneString (obj : List (String × Json)) : String :=
  match getField obj "phone" with
  | some (Json.num n) => numToString n
  | some (Json.str s) => s
  | some _ => ""
  | none => ""

/-- The unique-client update of the loop body. -/
def updatePhones (acc : StatsAcc) (phone_str : String) : StatsAcc :=
  if phone_str ≠ "" then { acc with unique_phones := insertSet phone_str acc.unique_phones }
  else acc

/-- The aura-bucket update of the loop body. -/
def updateAura (jsonParse : String → Option Json) (obj : List (String × Json))
    (acc : StatsAcc) : StatsAcc :=
  match extract_percent_value jsonParse obj with
  | some percent_value =>
      if percent_value < 60 then { acc with low_aura := acc.low_aura + 1 }
      else if percent_value ≤ 80 then { acc with normal_aura := acc.normal_aura + 1 }
      else { acc with high_aura := acc.high_aura + 1 }
  | none => acc

/-- The per-club counting update of the loop body. -/
def updateClub (club_id_opt : Option String) (phone_str : String) (acc : StatsAcc) : StatsAcc :=
  match club_id_opt with
  | some club_id =>
      let acc1 := { acc with club_generations := incrAssoc acc.club_generations club_id }
      if phone_str ≠ "" then
        { acc1 with club_unique_phones := addPhone acc1.club_unique_phones club_id phone_str }
      else acc1
  | none => acc

/-- `CreatedAt` falling back to `CreatedAt1`, read as a string. -/
def createdStr (obj : List (String × Json)) : Option String :=
  ((getField obj "CreatedAt").orElse (fun _ => getField obj "CreatedAt1")).bind Json.asStr

/-- `UpdatedAt` falling back to `UpdatedAt1`, read as a string. -/
def updatedStr (obj : List (String × Json)) : Option String :=
  ((getField obj "UpdatedAt").orElse (fun _ => getField obj "UpdatedAt1")).bind Json.asStr

/-- Timestamp parse used for generation time: the offset-qualified format
first, then the naive format read as UTC. -/
def parseTzOrNaive (s : String) : Option Int :=
  (parseWithTz s).orElse (fun _ => parseNaiveUtc s)

/-- The generation-time update of the loop body (`UpdatedAt - CreatedAt` in
seconds; `num_milliseconds / 1000` is exact here because both instants are
whole seconds). -/
def updateGenTime (obj : List (String × Json)) (acc : StatsAcc) : StatsAcc :=
  match createdStr obj, updatedStr obj with
  | some created, some updated =>
      match parseTzOrNaive created, parseTzOrNaive updated with
      | some created_time, some updated_time =>
          { acc with
            total_generation_time :=
              acc.total_generation_time + ((updated_time - created_time : Int) : ℚ),
            generation_time_count := acc.generation_time_count + 1 }
      | _, _ => acc
  | _, _ => acc

/-- One iteration of the `for record in data` loop of `calculate_stats`:
records that are not objects, or whose `club_id` is absent, non-string or not
a key of `club_names`, are skipped (`continue`) and leave the state
untouched. -/
def stepRecord (jsonParse : String → Option Json) (club_names : List (String × String))
    (acc : StatsAcc) (record : Json) : StatsAcc :=
  match record.asObj with
  | none => acc
  | some obj =>
      let club_id_opt := (getField obj "club_id").bind Json.asStr
      let has_valid_club := (club_id_opt.map (containsKey club_names)).getD false
      if has_valid_club then
        updateGenTime obj
          (updateClub club_id_opt (phoneString obj)
            (updateAura jsonParse obj (updatePhones acc (phoneString obj))))
      else acc

/-- Stable descending insertion by `total_generations` (ties keep the
existing order), modelling the stable `sort_by(|a, b| b.cmp(a))`. -/
def insertDesc (x : ClubStats) : List ClubStats → List ClubStats
  | [] => [x]
  | y :: ys =>
      if y.total_generations < x.total_generations then x :: y :: ys
      else y :: insertDesc x ys

/-- Stable sort by `total_generations` descending. -/
def sortClubStats (l : List ClubStats) : List ClubStats :=
  l.foldl (fun acc x => insertDesc x acc) []

/-- `ReportService::calculate_stats`.  The iteration order of the Rust
`HashMap` over clubs is modelled as insertion order (first occurrence);
`percentage` and `avg_generation_time` are exact rationals. -/
def calculate_stats (jsonParse : String → Option Json) (data : List Json)
    (club_names : List (String × String)) : ReportStats :=
  let acc := data.foldl (stepRecord jsonParse club_names) initAcc
  let total_records := (acc.club_generations.map Prod.snd).sum
  let club_stats :=
    (acc.club_generations.filter (fun p => containsKey club_names p.1)).map (fun p =>
      { club_id := p.1
        club_name := (lookupName club_names p.1).getD p.1
        total_generations := p.2
        unique_clients := ((lookupSet acc.club_unique_phones p.1).map List.length).getD 0
        percentage :=
          if 0 < total_records then ((p.2 : ℚ) / (total_records : ℚ)) * 100 else 0 : ClubStats })
  { total_records := total_records
    unique_clients := acc.unique_phones.length
    low_aura := acc.low_aura
    normal_aura := acc.normal_aura
    high_aura := acc.high_aura
    club_stats := sortClubStats club_stats
    avg_generation_time :=
      if 0 < acc.generation_time_count then
        acc.total_generation_time / (acc.generation_time_count : ℚ)
      else 0 }

/-! ## csv_generator.rs -/

namespace CsvGenerator

/-- `CsvGenerator::convert_to_moscow_time`: parse the offset-qualified
timestamp and display it in Moscow civil time; on parse failure the original
string passes through unchanged. -/
def convert_to_moscow_time (utc_str : String) : String :=
  match parseWithTz utc_str with
  | some t => formatCivil moscowOffsetSeconds t
  | none => utc_str

/-- The percent-field handling that `extract_aura_percent` repeats at each
extraction site: a string percent is trimmed and stripped of trailing `%`
(returned whether or not it is numeric); a numeric percent is stringified;
any other shape falls through (`none`). -/
def percentFieldString (percent : Json) : Option String :=
  match percent.asStr with
  | some percent_str => some (trimEndPercent (trimAscii percent_str))
  | none =>
      match percent.asF64 with
      | some percent_num => some (numToString percent_num)
      | none => none

/-- The `text_aura` stage of `extract_aura_percent` (lines 29-57 of
`csv_generator.rs`): `some r` models a Rust early `return r`; `none` is the
fall-through to the `aura` fallback. -/
def textAuraString (jsonParse : String → Option Json)
    (record : List (String × Json)) : Option String :=
  match getField record "text_aura" with
  | none => none
  | some text_aura =>
      match text_aura.asObj with
      | some aura_obj =>
          match getField aura_obj "percent" with
          | some percent => percentFieldString percent
          | none => none
      | none =>
          match text_aura.asStr with
          | some aura_str =>
              if aura_str.isEmpty then none
              else
                match jsonParse aura_str with
                | some parsed =>
                    match parsed.asObj with
                    | some pobj =>
                        match getField pobj "percent" with
                        | some percent => percentFieldString percent
                        | none => none
                    | none => none
                | none => none
          | none => none

/-- The `aura`-field fallback stage of `extract_aura_percent` (lines 60-76 of
`csv_generator.rs`); unlike the Aggregator it also accepts a bare string
`aura` field. -/
def auraFallbackString (record : List (String × Json)) : String :=
  match getField record "aura" with
  | some aura =>
      match aura.asObj with
      | some aura_obj =>
          match getField aura_obj "percent" with
          | some percent =>
              match percentFieldString percent with
              | some r => r
              | none => ""
          | none => ""
      | none =>
          match aura.asStr with
          | some aura_str =>
              if aura_str.isEmpty then "" else trimEndPercent (trimAscii aura_str)
          | none => ""
  | none => ""

/-- `CsvGenerator::extract_aura_percent`. -/
def extract_aura_percent (jsonParse : String → Option Json)
    (record : List (String × Json)) : String :=
  match textAuraString jsonParse record with
  | some r => r
  | none => auraFallbackString record

/-- Quoting of the `csv` crate's default `QuoteStyle::Necessary` with the
`;` delimiter: a field is double-quoted (with inner quotes doubled) exactly
when it contains the delimiter, a quote, or a record terminator. -/
def csvEscape (field : String) : String :=
  if field.data.any (fun c => c = ';' || c = '"' || c = '\n' || c = '\r') then
    "\"" ++ ⟨field.data.foldr (fun c acc => if c = '"' then '"' :: '"' :: acc else c :: acc) []⟩ ++ "\""
  else field

/-- One written CSV record: `;`-joined escaped fields plus the `\n`
terminator. -/
def writeRecord (fields : List String) : String :=
  String.intercalate ";" (fields.map csvEscape) ++ "\n"

/-- The fixed Russian header row. -/
def headers : List String :=
  ["Телефон", "Имя", "Дата визита", "Продолжительность", "Комплекс", "Аура",
   "Дата рождения", "Пол"]

/-- The UTF-8 byte-order mark, at the text level (its bytes EF BB BF encode
U+FEFF). -/
def bom : String := String.singleton (Char.ofNat 0xFEFF)

/-- The 8 fields of the data row written for one object-shaped record. -/
def renderRow (jsonParse : String → Option Json) (club_names : List (String × String))
    (obj : List (String × Json)) : List String :=
  [ match getField obj "phone" with
    | some (Json.num n) => numToString n
    | some (Json.str s) => s
    | some _ => ""
    | none => "",
    ((getField obj "name").bind Json.asStr).getD "",
    match (getField obj "date_visit").bind Json.asStr with
    | some s => convert_to_moscow_time s
    | none => "",
    match getField obj "duration" with
    | some (Json.num n) => numToString n
    | some (Json.str s) => s
    | some _ => ""
    | none => "",
    match (getField obj "club_id").bind Json.asStr with
    | some club_id =>
        match lookupName club_names club_id with
        | some nm => nm
        | none => club_id
    | none => "",
    extract_aura_percent jsonParse obj,
    ((getField obj "birth_date").bind Json.asStr).getD "",
    ((getField obj "sex").bind Json.asStr).getD "" ]

/-- `CsvGenerator::generate`, modelled as the text content written to the
output file: the BOM, the header record, then the loop over `data` appending
one record per object-shaped element. -/
def generate (jsonParse : String → Option Json) (data : List Json)
    (club_names : List (String × String)) : String :=
  let headerLine := writeRecord headers
  if data.isEmpty then bom ++ headerLine
  else
    bom ++ headerLine ++
      data.foldl (fun out record =>
        match record.asObj with
        | some obj => out ++ writeRecord (renderRow jsonParse club_names obj)
        | none => out) ""

end CsvGenerator

/-! ## Theorems -/

/-- Unfolding lemma: a run of `fetch_records_go` across `K` full pages and a
final short page appends exactly those pages, in order, to the accumulator. -/
theorem fetch_records_go_spec (page : Nat → List Json) (K : Nat) :
    ∀ (base fuel : Nat) (acc : List Json),
      (∀ i, i < K → 100 ≤ (page (base + i * 100)).length) →
      (page (base + K * 100)).length < 100 →
      K < fuel →
      fetch_records_go page fuel base acc =
        some (acc ++ ((List.range (K + 1)).map (fun i => page (base + i * 100))).flatten) := by
  induction K with
  | zero =>
      intro base fuel acc _ hshort hfuel
      obtain ⟨f, rfl⟩ : ∃ f, fuel = f + 1 := ⟨fuel - 1, by omega⟩
      simp only [fetch_records_go]
      rw [if_pos (by simpa using hshort)]
      have hr1 : List.range 1 = [0] := rfl
      rw [hr1]
      simp
  | succ K ih =>
      intro base fuel acc hfull hshort hfuel
      obtain ⟨f, rfl⟩ : ∃ f, fuel = f + 1 := ⟨fuel - 1, by omega⟩
      have h0 : 100 ≤ (page base).length := by
        have := hfull 0 (Nat.succ_pos K)
        simpa using this
      have hrec :
          fetch_records_go page f (base + 100) (acc ++ page base) =
            some ((acc ++ page base) ++
              ((List.range (K + 1)).map (fun i => page (base + 100 + i * 100))).flatten) := by
        apply ih
        · intro i hi
          have := hfull (i + 1) (by omega)
          have harith : base + (i + 1) * 100 = base + 100 + i * 100 := by ring
          rwa [harith] at this
        · have harith : base + (K + 1) * 100 = base + 100 + K * 100 := by ring
          rwa [harith] at hshort
        · omega
      have hfun : ((fun i => page (base + i * 100)) ∘ Nat.succ) =
          (fun i => page (base + 100 + i * 100)) := by
        funext i
        show page (base + (i + 1) * 100) = page (base + 100 + i * 100)
        congr 1
        ring
      have hmap :
          (List.range (K + 2)).map (fun i => page (base + i * 100)) =
            page base :: (List.range (K + 1)).map (fun i => page (base + 100 + i * 100)) := by
        rw [List.range_succ_eq_map]
        rw [List.map_cons, List.map_map, hfun]
        norm_num
      simp only [fetch_records_go]
      rw [if_neg (by omega)]
      rw [hrec, hmap]
      simp [List.append_assoc]

/-- C2: `fetch_records` returns the in-order concatenation of the pages at
offsets 0, 100, 200, …, stopping with the first page shorter than the page
size 100; with enough fuel (strictly more round trips than the index of the
first short page) the loop finishes, so it terminates for every page oracle
that eventually returns a short page. -/
theorem fetch_records_paginates (page : Nat → List Json) (K : Nat)
    (hfull : ∀ i, i < K → 100 ≤ (page (i * 100)).length)
    (hshort : (page (K * 100)).length < 100) :
    ∀ fuel, K < fuel →
      fetch_records page fuel =
        some (((List.range (K + 1)).map (fun i => page (i * 100))).flatten) := by
  intro fuel hfuel
  have h1 : ∀ i, i < K → 100 ≤ (page (0 + i * 100)).length := by
    intro i hi
    have := hfull i hi
    rwa [Nat.zero_add]
  have h2 : (page (0 + K * 100)).length < 100 := by
    rwa [Nat.zero_add]
  have h := fetch_records_go_spec page K 0 fuel [] h1 h2 hfuel
  have hfun : (fun i => page (0 + i * 100)) = (fun i => page (i * 100)) := by
    funext i
    rw [Nat.zero_add]
  rw [fetch_records, h, hfun]
  rw [List.nil_append]

/-- A remote returning pages of sizes 100, 100, 100, 42. -/
def pagesExample (offset : Nat) : List Json :=
  if offset < 300 then List.replicate 100 Json.null else List.replicate 42 Json.null

set_option maxRecDepth 8000 in
/-- Witness for C2: on pages of sizes `[100,100,100,42]` the fetch needs four
round trips and yields exactly 342 records. -/
theorem fetch_records_paginates_witness :
    fetch_records pagesExample 4 = some (List.replicate 342 Json.null) ∧
      (List.replicate 342 Json.null).length = 342 := by
  refine ⟨?_, by simp⟩
  have h := fetch_records_paginates pagesExample 3
    (by intro i hi; interval_cases i <;> decide) (by decide) 4 (by omega)
  rw [h]
  rfl

/-- C1: when the server-side filtered listing fails, `fetch_data_for_period`
does not propagate the failure; it returns `Ok` of exactly those unfiltered
records whose configured date field is a string parsing under the naive
format (read as UTC) or else under the offset-qualified format, with the
instant inside `[start, stop]`; records whose field is missing, non-string or
unparsable under both formats are dropped. -/
theorem fetch_data_for_period_fallback (date_field_name : String) (range : DateRange)
    (msg : String) (all_records : List Json) :
    fetch_data_for_period date_field_name range (.error msg) (.ok all_records) =
      .ok (all_records.filter (fun record =>
        match (record.asObj.bind (fun obj => getField obj date_field_name)).bind Json.asStr with
        | some date_str =>
            match (parseNaiveUtc date_str).orElse (fun _ => parseWithTz date_str) with
            | some t => decide (range.start ≤ t ∧ t ≤ range.stop)
            | none => false
        | none => false)) := by
  show Except.ok (all_records.filter (record_in_range date_field_name range)) = _
  congr 1
  apply List.filter_congr
  intro r _
  unfold record_in_range
  cases hobj : r.asObj with
  | none => simp [hobj]
  | some obj =>
      simp only [hobj, Option.some_bind]
      cases hstr : (getField obj date_field_name).bind Json.asStr with
      | none => simp [hstr]
      | some date_str =>
          simp only [hstr]
          cases hn : parseNaiveUtc date_str with
          | some t => simp [hn, Option.orElse, Bool.and_eq_true, decide_eq_true_eq]
          | none =>
              cases hz : parseWithTz date_str with
              | some t => simp [hn, hz, Option.orElse]
              | none => simp [hn, hz, Option.orElse]

/-- C10: the report file paths depend only on the output directory and the
UTC day of `range.start` (day number `start / 86400`, equivalently the `%Y%m%d`
calendar date): two ranges starting on the same UTC day give identical CSV
and PDF paths, with no per-invocation (time-of-day) component. -/
theorem report_paths_same_day (output_dir : String) (r1 r2 : DateRange)
    (h : r1.start / 86400 = r2.start / 86400) :
    csv_filename output_dir r1 = csv_filename output_dir r2 ∧
      pdf_filename output_dir r1 = pdf_filename output_dir r2 := by
  unfold csv_filename pdf_filename get_filename_suffix
  rw [h]
  exact ⟨rfl, rfl⟩

/-- Witness for C10: two `Today`-style ranges starting at different times of
the same UTC day produce the same file names. -/
theorem report_paths_same_day_witness :
    ((19723 * 86400 + 3600 : Int) / 86400 = (19723 * 86400 + 7200 : Int) / 86400) ∧
      csv_filename "reports" ⟨19723 * 86400 + 3600, 0, ""⟩ =
        csv_filename "reports" ⟨19723 * 86400 + 7200, 0, ""⟩ ∧
      csv_filename "reports" ⟨19723 * 86400 + 3600, 0, ""⟩ = "reports/report_20240101.csv" := by
  refine ⟨by decide, ?_, by rfl⟩
  exact (report_paths_same_day "reports" ⟨19723 * 86400 + 3600, 0, ""⟩
    ⟨19723 * 86400 + 7200, 0, ""⟩ (by decide)).1

/-- Day-number monotonicity of the civil calendar within one year: the first
day of an earlier (or equal) month does not come after any day of a later
month. -/
theorem civilToDays_mono (y m0 m d : Int) (h0 : 1 ≤ m0) (hm : m0 ≤ m) (h12 : m ≤ 12)
    (hd : 1 ≤ d) : civilToDays y m0 1 ≤ civilToDays y m d := by
  unfold civilToDays
  by_cases hA : m0 ≤ 2 <;> by_cases hB : m ≤ 2 <;>
    simp only [hA, hB, if_true, if_false, reduceIte] <;> omega

/-- C9: for every `Period` variant and every current instant, the resolved
range satisfies `start ≤ stop`. -/
theorem get_date_range_start_le_stop (p : Period) (now : MoscowNow) (h : now.Valid) :
    (Period.get_date_range p now).start ≤ (Period.get_date_range p now).stop := by
  obtain ⟨h1, h2, h3, _, _⟩ := h
  cases p <;>
    simp only [Period.get_date_range, mskToUtc, numDaysFromMonday]
  case Today => omega
  case Yesterday => omega
  case Week => omega
  case Month =>
      have hmono := civilToDays_mono now.year now.month now.month now.day h1 le_rfl h2 h3
      omega
  case Quarter =>
      have hmono := civilToDays_mono now.year ((now.month - 1) / 3 * 3 + 1) now.month now.day
        (by omega) (by omega) h2 h3
      omega
  case HalfYear =>
      by_cases hm6 : now.month ≤ 6
      · have hmono := civilToDays_mono now.year 1 now.month now.day (by omega) h1 h2 h3
        simp only [hm6, if_true, reduceIte]
        omega
      · have hmono := civilToDays_mono now.year 7 now.month now.day (by omega) (by omega) h2 h3
        simp only [hm6, if_false, reduceIte]
        omega
  case Year =>
      have hmono := civilToDays_mono now.year 1 now.month now.day (by omega) h1 h2 h3
      omega

/-- Witness for C9: the `Today` range at a concrete Moscow instant. -/
theorem get_date_range_start_le_stop_witness :
    (MoscowNow.Valid ⟨2024, 10, 7, 12, 30, 0⟩) ∧
      (Period.get_date_range .Today ⟨2024, 10, 7, 12, 30, 0⟩).start ≤
        (Period.get_date_range .Today ⟨2024, 10, 7, 12, 30, 0⟩).stop := by
  refine ⟨by decide, ?_⟩
  exact get_date_range_start_le_stop .Today ⟨2024, 10, 7, 12, 30, 0⟩ (by decide)

/-- The spec's notion of a record retained by `calculate_stats`: an
object-shaped record whose `club_id` is a string that is a key of the
lookup map. -/
def record_has_valid_club (club_names : List (String × String)) (record : Json) : Bool :=
  match record.asObj with
  | some obj =>
      match (getField obj "club_id").bind Json.asStr with
      | some id => containsKey club_names id
      | none => false
  | none => false

/-- A record without a valid club leaves the loop state untouched. -/
theorem stepRecord_skip (jsonParse : String → Option Json)
    (club_names : List (String × String)) (r : Json)
    (h : record_has_valid_club club_names r = false) (acc : StatsAcc) :
    stepRecord jsonParse club_names acc r = acc := by
  cases hobj : r.asObj with
  | none => simp [stepRecord, hobj]
  | some obj =>
      cases hcid : (getField obj "club_id").bind Json.asStr with
      | none => simp [stepRecord, hobj, hcid]
      | some id =>
          have hkey : containsKey club_names id = false := by
            simpa [record_has_valid_club, hobj, hcid] using h
          simp [stepRecord, hobj, hcid, hkey]

/-- Folding a step that ignores records failing `p` equals folding over the
`p`-filtered list. -/
theorem foldl_filter_of_skip {α β : Type} (f : β → α → β) (p : α → Bool)
    (hf : ∀ a, p a = false → ∀ b, f b a = b) :
    ∀ (l : List α) (b : β), l.foldl f b = (l.filter p).foldl f b := by
  intro l
  induction l with
  | nil => intro b; rfl
  | cons a l ih =>
      intro b
      by_cases hp : p a = true
      · simp [List.filter_cons, hp, List.foldl_cons, ih]
      · have hp' : p a = false := by
          cases hpa : p a
          · rfl
          · exact absurd hpa hp
        simp [List.filter_cons, hp', List.foldl_cons, hf a hp', ih]

/-- C4: `calculate_stats` skips records without a valid club entirely — its
result on any data equals its result on just the valid-club records. -/
theorem calculate_stats_skips_invalid_club (jsonParse : String → Option Json)
    (data : List Json) (club_names : List (String × String)) :
    calculate_stats jsonParse data club_names =
      calculate_stats jsonParse (data.filter (record_has_valid_club club_names)) club_names := by
  have hfold :
      data.foldl (stepRecord jsonParse club_names) initAcc =
        (data.filter (record_has_valid_club club_names)).foldl
          (stepRecord jsonParse club_names) initAcc :=
    foldl_filter_of_skip _ _ (fun a ha b => stepRecord_skip jsonParse club_names a ha b)
      data initAcc
  unfold calculate_stats
  rw [hfold]

/-- `updatePhones` leaves every field except `unique_phones` unchanged. -/
theorem updatePhones_fields (acc : StatsAcc) (ph : String) :
    (updatePhones acc ph).low_aura = acc.low_aura ∧
    (updatePhones acc ph).normal_aura = acc.normal_aura ∧
    (updatePhones acc ph).high_aura = acc.high_aura ∧
    (updatePhones acc ph).club_generations = acc.club_generations := by
  unfold updatePhones
  split <;> exact ⟨rfl, rfl, rfl, rfl⟩

/-- `updateGenTime` leaves buckets and per-club counters unchanged. -/
theorem updateGenTime_fields (obj : List (String × Json)) (acc : StatsAcc) :
    (updateGenTime obj acc).low_aura = acc.low_aura ∧
    (updateGenTime obj acc).normal_aura = acc.normal_aura ∧
    (updateGenTime obj acc).high_aura = acc.high_aura ∧
    (updateGenTime obj acc).club_generations = acc.club_generations := by
  unfold updateGenTime
  split
  · split
    · exact ⟨rfl, rfl, rfl, rfl⟩
    · exact ⟨rfl, rfl, rfl, rfl⟩
  · exact ⟨rfl, rfl, rfl, rfl⟩

/-- `updateClub` leaves the aura buckets unchanged, and with a present club
id it bumps that club's generation counter. -/
theorem updateClub_fields (club_id_opt : Option String) (ph : String) (acc : StatsAcc) :
    (updateClub club_id_opt ph acc).low_aura = acc.low_aura ∧
    (updateClub club_id_opt ph acc).normal_aura = acc.normal_aura ∧
    (updateClub club_id_opt ph acc).high_aura = acc.high_aura := by
  unfold updateClub
  split
  · split <;> exact ⟨rfl, rfl, rfl⟩
  · exact ⟨rfl, rfl, rfl⟩

/-- With a present club id, `updateClub` bumps exactly that club's counter. -/
theorem updateClub_gens (id : String) (ph : String) (acc : StatsAcc) :
    (updateClub (some id) ph acc).club_generations = incrAssoc acc.club_generations id := by
  simp only [updateClub]
  split <;> rfl

/-- `updateAura` leaves the per-club counters unchanged. -/
theorem updateAura_gens (jsonParse : String → Option Json) (obj : List (String × Json))
    (acc : StatsAcc) :
    (updateAura jsonParse obj acc).club_generations = acc.club_generations := by
  unfold updateAura
  split
  · split
    · rfl
    · split <;> rfl
  · rfl

/-- Bucket increments of `updateAura` when a percent is extracted. -/
theorem updateAura_some (jsonParse : String → Option Json) (obj : List (String × Json))
    (acc : StatsAcc) (p : ℚ) (h : extract_percent_value jsonParse obj = some p) :
    (updateAura jsonParse obj acc).low_aura = acc.low_aura + (if p < 60 then 1 else 0) ∧
    (updateAura jsonParse obj acc).normal_aura =
      acc.normal_aura + (if 60 ≤ p ∧ p ≤ 80 then 1 else 0) ∧
    (updateAura jsonParse obj acc).high_aura = acc.high_aura + (if 80 < p then 1 else 0) := by
  simp only [updateAura, h]
  by_cases hp1 : p < 60
  · have h2 : ¬ (60 ≤ p ∧ p ≤ 80) := fun hc => absurd hp1 (not_lt.mpr hc.1)
    have h3 : ¬ (80 < p) := by linarith
    simp [hp1, h2, h3]
  · by_cases hp2 : p ≤ 80
    · have hmid : 60 ≤ p ∧ p ≤ 80 := ⟨not_lt.mp hp1, hp2⟩
      have h3 : ¬ (80 < p) := not_lt.mpr hp2
      simp [hp1, hp2, hmid, h3]
    · have h3 : 80 < p := not_le.mp hp2
      have h2 : ¬ (60 ≤ p ∧ p ≤ 80) := fun hc => hp2 hc.2
      simp [hp1, hp2, h2, h3]

/-- `updateAura` without an extracted percent changes nothing. -/
theorem updateAura_none (jsonParse : String → Option Json) (obj : List (String × Json))
    (acc : StatsAcc) (h : extract_percent_value jsonParse obj = none) :
    updateAura jsonParse obj acc = acc := by
  simp [updateAura, h]

/-- C5: for a valid-club record, the `calculate_stats` loop body increments
`low_aura` exactly when the extracted percent is `< 60`, `normal_aura` exactly
when it is in `[60, 80]`, `high_aura` exactly when it is `> 80`, and none of
the buckets when no percent is extractable. -/
theorem stepRecord_aura_buckets (jsonParse : String → Option Json)
    (club_names : List (String × String)) (acc : StatsAcc) (r : Json)
    (obj : List (String × Json)) (hobj : r.asObj = some obj)
    (hvalid : record_has_valid_club club_names r = true) :
    (∀ p, extract_percent_value jsonParse obj = some p →
      ((stepRecord jsonParse club_names acc r).low_aura =
          acc.low_aura + (if p < 60 then 1 else 0) ∧
        (stepRecord jsonParse club_names acc r).normal_aura =
          acc.normal_aura + (if 60 ≤ p ∧ p ≤ 80 then 1 else 0) ∧
        (stepRecord jsonParse club_names acc r).high_aura =
          acc.high_aura + (if 80 < p then 1 else 0))) ∧
    (extract_percent_value jsonParse obj = none →
      ((stepRecord jsonParse club_names acc r).low_aura = acc.low_aura ∧
        (stepRecord jsonParse club_names acc r).normal_aura = acc.normal_aura ∧
        (stepRecord jsonParse club_names acc r).high_aura = acc.high_aura)) := by
  have hex : ∃ id, (getField obj "club_id").bind Json.asStr = some id ∧
      containsKey club_names id = true := by
    cases hc : (getField obj "club_id").bind Json.asStr with
    | none =>
        exfalso
        have : record_has_valid_club club_names r = false := by
          simp [record_has_valid_club, hobj, hc]
        rw [this] at hvalid
        cases hvalid
    | some id =>
        refine ⟨id, rfl, ?_⟩
        have := hvalid
        simpa [record_has_valid_club, hobj, hc] using this
  obtain ⟨id, hcid, hkey⟩ := hex
  have hstep : stepRecord jsonParse club_names acc r =
      updateGenTime obj
        (updateClub (some id) (phoneString obj)
          (updateAura jsonParse obj (updatePhones acc (phoneString obj)))) := by
    simp [stepRecord, hobj, hcid, hkey]
  constructor
  · intro p hp
    obtain ⟨gl, gn, gh, _⟩ :=
      updateGenTime_fields obj
        (updateClub (some id) (phoneString obj)
          (updateAura jsonParse obj (updatePhones acc (phoneString obj))))
    obtain ⟨cl, cn2, ch⟩ :=
      updateClub_fields (some id) (phoneString obj)
        (updateAura jsonParse obj (updatePhones acc (phoneString obj)))
    obtain ⟨al, an, ah⟩ :=
      updateAura_some jsonParse obj (updatePhones acc (phoneString obj)) p hp
    obtain ⟨pl, pn, ph2, _⟩ := updatePhones_fields acc (phoneString obj)
    rw [hstep]
    exact ⟨by rw [gl, cl, al, pl], by rw [gn, cn2, an, pn], by rw [gh, ch, ah, ph2]⟩
  · intro hnone
    obtain ⟨gl, gn, gh, _⟩ :=
      updateGenTime_fields obj
        (updateClub (some id) (phoneString obj)
          (updateAura jsonParse obj (updatePhones acc (phoneString obj))))
    obtain ⟨cl, cn2, ch⟩ :=
      updateClub_fields (some id) (phoneString obj)
        (updateAura jsonParse obj (updatePhones acc (phoneString obj)))
    have haura := updateAura_none jsonParse obj (updatePhones acc (phoneString obj)) hnone
    obtain ⟨pl, pn, ph2, _⟩ := updatePhones_fields acc (phoneString obj)
    rw [hstep]
    exact ⟨by rw [gl, cl, haura, pl], by rw [gn, cn2, haura, pn], by rw [gh, ch, haura, ph2]⟩

/-- An abstract stand-in for `serde_json::from_str` used by the concrete
witnesses (the theorems hold for every parser). -/
def jp0 : String → Option Json := fun _ => none

/-- Object fields of a valid-club record carrying a numeric aura percent. -/
def auraObj (q : ℚ) : List (String × Json) :=
  [("club_id", Json.str "c1"), ("text_aura", Json.obj [("percent", Json.num q)])]

/-- A valid-club record carrying a numeric aura percent. -/
def auraRecord (q : ℚ) : Json := Json.obj (auraObj q)

/-- Witness for C5 at the boundary percents 60, 60.0001, 80, 80.0001 and
59.9999. -/
theorem stepRecord_aura_buckets_witness :
    (stepRecord jp0 [("c1", "C")] initAcc (auraRecord 60)).normal_aura =
        initAcc.normal_aura + 1 ∧
      (stepRecord jp0 [("c1", "C")] initAcc (auraRecord (600001 / 10000))).normal_aura =
        initAcc.normal_aura + 1 ∧
      (stepRecord jp0 [("c1", "C")] initAcc (auraRecord 80)).normal_aura =
        initAcc.normal_aura + 1 ∧
      (stepRecord jp0 [("c1", "C")] initAcc (auraRecord (800001 / 10000))).high_aura =
        initAcc.high_aura + 1 ∧
      (stepRecord jp0 [("c1", "C")] initAcc (auraRecord (599999 / 10000))).low_aura =
        initAcc.low_aura + 1 := by
  refine ⟨?_, ?_, ?_, ?_, ?_⟩
  · have h := (stepRecord_aura_buckets jp0 [("c1", "C")] initAcc (auraRecord 60)
      (auraObj 60) rfl (by decide)).1 60 (by decide)
    rw [h.2.1]
    norm_num
  · have h := (stepRecord_aura_buckets jp0 [("c1", "C")] initAcc
      (auraRecord (600001 / 10000)) (auraObj (600001 / 10000)) rfl (by decide)).1
      (600001 / 10000) rfl
    rw [h.2.1]
    norm_num
  · have h := (stepRecord_aura_buckets jp0 [("c1", "C")] initAcc (auraRecord 80)
      (auraObj 80) rfl (by decide)).1 80 (by decide)
    rw [h.2.1]
    norm_num
  · have h := (stepRecord_aura_buckets jp0 [("c1", "C")] initAcc
      (auraRecord (800001 / 10000)) (auraObj (800001 / 10000)) rfl (by decide)).1
      (800001 / 10000) rfl
    rw [h.2.2]
    norm_num
  · have h := (stepRecord_aura_buckets jp0 [("c1", "C")] initAcc
      (auraRecord (599999 / 10000)) (auraObj (599999 / 10000)) rfl (by decide)).1
      (599999 / 10000) rfl
    rw [h.1]
    norm_num

/-- Total of the per-club generation counters. -/
def sumGens (l : List (String × Nat)) : Nat := (l.map Prod.snd).sum

/-- Bumping one club's counter raises the total by exactly one. -/
theorem sumGens_incrAssoc (l : List (String × Nat)) (k : String) :
    sumGens (incrAssoc l k) = sumGens l + 1 := by
  induction l with
  | nil => simp [incrAssoc, sumGens]
  | cons hd tl ih =>
      obtain ⟨k2, v⟩ := hd
      unfold incrAssoc
      by_cases hk : k2 = k
      · simp [hk, sumGens]
        omega
      · simp [hk, sumGens] at ih ⊢
        omega

/-- `updateAura` adds at most one across the three buckets. -/
theorem updateAura_sum_le (jsonParse : String → Option Json) (obj : List (String × Json))
    (acc : StatsAcc) :
    (updateAura jsonParse obj acc).low_aura + (updateAura jsonParse obj acc).normal_aura +
        (updateAura jsonParse obj acc).high_aura ≤
      acc.low_aura + acc.normal_aura + acc.high_aura + 1 := by
  unfold updateAura
  repeat' split
  all_goals simp
  all_goals omega

/-- The loop body preserves `low+normal+high ≤ total per-club count`. -/
theorem stepRecord_bucket_inv (jsonParse : String → Option Json)
    (club_names : List (String × String)) (acc : StatsAcc) (r : Json)
    (h : acc.low_aura + acc.normal_aura + acc.high_aura ≤ sumGens acc.club_generations) :
    (stepRecord jsonParse club_names acc r).low_aura +
        (stepRecord jsonParse club_names acc r).normal_aura +
        (stepRecord jsonParse club_names acc r).high_aura ≤
      sumGens (stepRecord jsonParse club_names acc r).club_generations := by
  by_cases hv : record_has_valid_club club_names r = true
  · cases hobj : r.asObj with
    | none => exfalso; simp [record_has_valid_club, hobj] at hv
    | some obj =>
        have hex : ∃ id, (getField obj "club_id").bind Json.asStr = some id ∧
            containsKey club_names id = true := by
          cases hc : (getField obj "club_id").bind Json.asStr with
          | none => exfalso; simp [record_has_valid_club, hobj, hc] at hv
          | some id => exact ⟨id, rfl, by simpa [record_has_valid_club, hobj, hc] using hv⟩
        obtain ⟨id, hcid, hkey⟩ := hex
        have hstep : stepRecord jsonParse club_names acc r =
            updateGenTime obj
              (updateClub (some id) (phoneString obj)
                (updateAura jsonParse obj (updatePhones acc (phoneString obj)))) := by
          simp [stepRecord, hobj, hcid, hkey]
        rw [hstep]
        obtain ⟨gl, gn, gh, gg⟩ :=
          updateGenTime_fields obj
            (updateClub (some id) (phoneString obj)
              (updateAura jsonParse obj (updatePhones acc (phoneString obj))))
        obtain ⟨cl, cn2, ch⟩ :=
          updateClub_fields (some id) (phoneString obj)
            (updateAura jsonParse obj (updatePhones acc (phoneString obj)))
        have cg := updateClub_gens id (phoneString obj)
          (updateAura jsonParse obj (updatePhones acc (phoneString obj)))
        have hAg := updateAura_gens jsonParse obj (updatePhones acc (phoneString obj))
        have hA := updateAura_sum_le jsonParse obj (updatePhones acc (phoneString obj))
        obtain ⟨pl, pn, ph2, pg⟩ := updatePhones_fields acc (phoneString obj)
        rw [gl, gn, gh, gg, cl, cn2, ch, cg, sumGens_incrAssoc, hAg, pg]
        rw [pl, pn, ph2] at hA
        omega
  · have hf : record_has_valid_club club_names r = false := by
      cases hx : record_has_valid_club club_names r
      · rfl
      · exact absurd hx hv
    rw [stepRecord_skip jsonParse club_names r hf acc]
    exact h

/-- The loop preserves the bucket invariant from any starting state. -/
theorem foldl_bucket_inv (jsonParse : String → Option Json)
    (club_names : List (String × String)) :
    ∀ (l : List Json) (acc : StatsAcc),
      acc.low_aura + acc.normal_aura + acc.high_aura ≤ sumGens acc.club_generations →
      (l.foldl (stepRecord jsonParse club_names) acc).low_aura +
          (l.foldl (stepRecord jsonParse club_names) acc).normal_aura +
          (l.foldl (stepRecord jsonParse club_names) acc).high_aura ≤
        sumGens (l.foldl (stepRecord jsonParse club_names) acc).club_generations := by
  intro l
  induction l with
  | nil => intro acc h; exact h
  | cons r l ih =>
      intro acc h
      exact ih (stepRecord jsonParse club_names acc r)
        (stepRecord_bucket_inv jsonParse club_names acc r h)

/-- C6: the three aura buckets never total more than `total_records` (the
retained valid-club record count), since records with unparsable aura join no
bucket. -/
theorem aura_buckets_le_total_records (jsonParse : String → Option Json)
    (data : List Json) (club_names : List (String × String)) :
    (calculate_stats jsonParse data club_names).low_aura +
        (calculate_stats jsonParse data club_names).normal_aura +
        (calculate_stats jsonParse data club_names).high_aura ≤
      (calculate_stats jsonParse data club_names).total_records := by
  have h := foldl_bucket_inv jsonParse club_names data initAcc (by simp [initAcc, sumGens])
  simp only [calculate_stats]
  simpa [sumGens] using h

/-- `insertDesc` only repositions the inserted element. -/
theorem insertDesc_perm (x : ClubStats) : ∀ l : List ClubStats, (insertDesc x l).Perm (x :: l)
  | [] => List.Perm.refl _
  | y :: ys => by
      unfold insertDesc
      split
      · exact List.Perm.refl _
      · exact ((insertDesc_perm x ys).cons y).trans (List.Perm.swap x y ys)

/-- The insertion-sort fold permutes its input. -/
theorem sortFold_perm :
    ∀ (l acc : List ClubStats), (l.foldl (fun a x => insertDesc x a) acc).Perm (l ++ acc) := by
  intro l
  induction l with
  | nil => intro acc; exact List.Perm.refl _
  | cons x l ih =>
      intro acc
      have h1 := ih (insertDesc x acc)
      have h2 : (l ++ insertDesc x acc).Perm (l ++ (x :: acc)) :=
        (insertDesc_perm x acc).append_left l
      have h3 : (l ++ (x :: acc)).Perm (x :: (l ++ acc)) := List.perm_middle
      exact (h1.trans (h2.trans h3))

/-- `sortClubStats` is a permutation. -/
theorem sortClubStats_perm (l : List ClubStats) : (sortClubStats l).Perm l := by
  have h := sortFold_perm l []
  simpa [sortClubStats] using h

/-- `incrAssoc` keeps every key valid when the bumped key is valid. -/
theorem incrAssoc_valid (cn : List (String × String)) (l : List (String × Nat)) (k : String)
    (hl : ∀ p ∈ l, containsKey cn p.1 = true) (hk : containsKey cn k = true) :
    ∀ p ∈ incrAssoc l k, containsKey cn p.1 = true := by
  induction l with
  | nil =>
      intro p hp
      simp [incrAssoc] at hp
      rw [hp]
      exact hk
  | cons hd tl ih =>
      obtain ⟨k2, v⟩ := hd
      unfold incrAssoc
      by_cases hkk : k2 = k
      · simp only [hkk, if_true, reduceIte]
        intro p hp
        rcases List.mem_cons.mp hp with h | h
        · rw [h]
          exact hk
        · exact hl p (List.mem_cons_of_mem _ h)
      · simp only [hkk, if_false, reduceIte]
        intro p hp
        rcases List.mem_cons.mp hp with h | h
        · rw [h]
          exact hl (k2, v) (List.mem_cons_self _ _)
        · exact ih (fun q hq => hl q (List.mem_cons_of_mem _ hq)) p h

/-- The loop body only ever records clubs that are keys of `club_names`. -/
theorem stepRecord_gens_valid (jsonParse : String → Option Json)
    (club_names : List (String × String)) (acc : StatsAcc) (r : Json)
    (h : ∀ p ∈ acc.club_generations, containsKey club_names p.1 = true) :
    ∀ p ∈ (stepRecord jsonParse club_names acc r).club_generations,
      containsKey club_names p.1 = true := by
  by_cases hv : record_has_valid_club club_names r = true
  · cases hobj : r.asObj with
    | none => exfalso; simp [record_has_valid_club, hobj] at hv
    | some obj =>
        have hex : ∃ id, (getField obj "club_id").bind Json.asStr = some id ∧
            containsKey club_names id = true := by
          cases hc : (getField obj "club_id").bind Json.asStr with
          | none => exfalso; simp [record_has_valid_club, hobj, hc] at hv
          | some id => exact ⟨id, rfl, by simpa [record_has_valid_club, hobj, hc] using hv⟩
        obtain ⟨id, hcid, hkey⟩ := hex
        have hstep : stepRecord jsonParse club_names acc r =
            updateGenTime obj
              (updateClub (some id) (phoneString obj)
                (updateAura jsonParse obj (updatePhones acc (phoneString obj)))) := by
          simp [stepRecord, hobj, hcid, hkey]
        rw [hstep]
        obtain ⟨_, _, _, gg⟩ :=
          updateGenTime_fields obj
            (updateClub (some id) (phoneString obj)
              (updateAura jsonParse obj (updatePhones acc (phoneString obj))))
        have cg := updateClub_gens id (phoneString obj)
          (updateAura jsonParse obj (updatePhones acc (phoneString obj)))
        have hAg := updateAura_gens jsonParse obj (updatePhones acc (phoneString obj))
        obtain ⟨_, _, _, pg⟩ := updatePhones_fields acc (phoneString obj)
        rw [gg, cg, hAg, pg]
        exact incrAssoc_valid club_names acc.club_generations id h hkey
  · have hf : record_has_valid_club club_names r = false := by
      cases hx : record_has_valid_club club_names r
      · rfl
      · exact absurd hx hv
    rw [stepRecord_skip jsonParse club_names r hf acc]
    exact h

/-- The loop keeps every recorded club valid, from any valid start. -/
theorem foldl_gens_valid (jsonParse : String → Option Json)
    (club_names : List (String × String)) :
    ∀ (l : List Json) (acc : StatsAcc),
      (∀ p ∈ acc.club_generations, containsKey club_names p.1 = true) →
      ∀ p ∈ (l.foldl (stepRecord jsonParse club_names) acc).club_generations,
        containsKey club_names p.1 = true := by
  intro l
  induction l with
  | nil => intro acc h; exact h
  | cons r l ih =>
      intro acc h
      exact ih (stepRecord jsonParse club_names acc r)
        (stepRecord_gens_valid jsonParse club_names acc r h)

/-- Sorted club statistics built from per-club counters: each percentage is
its counter over the total times 100, and the percentages total 100 when the
total is positive. -/
theorem sorted_stats_spec (T : Nat) (mkStats : (String × Nat) → ClubStats)
    (gens : List (String × Nat))
    (hmk : ∀ p, (mkStats p).percentage =
      if 0 < T then ((p.2 : ℚ) / (T : ℚ)) * 100 else 0)
    (hmkg : ∀ p, (mkStats p).total_generations = p.2)
    (hT : T = (gens.map Prod.snd).sum) :
    (∀ cs ∈ sortClubStats (gens.map mkStats),
        cs.percentage =
          if 0 < T then ((cs.total_generations : ℚ) / (T : ℚ)) * 100 else 0) ∧
    (0 < T →
      ((sortClubStats (gens.map mkStats)).map ClubStats.percentage).sum = 100) := by
  constructor
  · intro cs hcs
    have hmem := (sortClubStats_perm (gens.map mkStats)).mem_iff.mp hcs
    obtain ⟨p, hp, rfl⟩ := List.mem_map.mp hmem
    rw [hmk p, hmkg p]
  · intro hT0
    have hperm := (sortClubStats_perm (gens.map mkStats)).map ClubStats.percentage
    rw [hperm.sum_eq, List.map_map]
    have hcong : gens.map (ClubStats.percentage ∘ mkStats) =
        gens.map (fun p => (p.2 : ℚ) * (100 / (T : ℚ))) := by
      apply List.map_congr_left
      intro p _
      simp only [Function.comp_apply, hmk p]
      rw [if_pos hT0]
      ring
    rw [hcong, List.sum_map_mul_right]
    have hsum : (gens.map (fun p => ((p.2 : Nat) : ℚ))).sum = ((gens.map Prod.snd).sum : ℚ) := by
      rw [Nat.cast_list_sum, List.map_map]
      rfl
    rw [hsum, ← hT]
    have hTne : (T : ℚ) ≠ 0 := Nat.cast_ne_zero.mpr (Nat.pos_iff_ne_zero.mp hT0)
    field_simp

/-- C7: in `calculate_stats`, each club's `percentage` is its
`total_generations` over `total_records` (the retained valid-club count)
times 100 — 0 when `total_records` is 0 — and the percentages over
`club_stats` sum exactly to 100 whenever `total_records > 0`. -/
theorem club_percentages_sum_to_100 (jsonParse : String → Option Json)
    (data : List Json) (club_names : List (String × String)) :
    (∀ cs ∈ (calculate_stats jsonParse data club_names).club_stats,
        cs.percentage =
          if 0 < (calculate_stats jsonParse data club_names).total_records then
            ((cs.total_generations : ℚ) /
                ((calculate_stats jsonParse data club_names).total_records : ℚ)) * 100
          else 0) ∧
    (0 < (calculate_stats jsonParse data club_names).total_records →
      (((calculate_stats jsonParse data club_names).club_stats).map ClubStats.percentage).sum =
        100) := by
  have hvalid : ∀ p ∈ (data.foldl (stepRecord jsonParse club_names) initAcc).club_generations,
      containsKey club_names p.1 = true :=
    foldl_gens_valid jsonParse club_names data initAcc (by simp [initAcc])
  have hfilter :
      (data.foldl (stepRecord jsonParse club_names) initAcc).club_generations.filter
          (fun p => containsKey club_names p.1) =
        (data.foldl (stepRecord jsonParse club_names) initAcc).club_generations :=
    List.filter_eq_self.mpr hvalid
  have hcs : (calculate_stats jsonParse data club_names).club_stats =
      sortClubStats
        (((data.foldl (stepRecord jsonParse club_names) initAcc).club_generations.filter
            (fun p => containsKey club_names p.1)).map (fun p =>
          ({ club_id := p.1
             club_name :=
               (lookupName club_names p.1).getD p.1
             total_generations := p.2
             unique_clients :=
               ((lookupSet (data.foldl (stepRecord jsonParse club_names) initAcc).club_unique_phones
                   p.1).map List.length).getD 0
             percentage :=
               if 0 < ((data.foldl (stepRecord jsonParse club_names)
                   initAcc).club_generations.map Prod.snd).sum then
                 ((p.2 : ℚ) /
                     ((((data.foldl (stepRecord jsonParse club_names)
                         initAcc).club_generations.map Prod.snd).sum : Nat) : ℚ)) * 100
               else 0 } : ClubStats))) := rfl
  have htr : (calculate_stats jsonParse data club_names).total_records =
      ((data.foldl (stepRecord jsonParse club_names) initAcc).club_generations.map Prod.snd).sum :=
    rfl
  rw [hcs, htr, hfilter]
  exact sorted_stats_spec
    ((data.foldl (stepRecord jsonParse club_names) initAcc).club_generations.map Prod.snd).sum
    _ _ (fun p => rfl) (fun p => rfl) rfl

/-- Witness for C7: two clubs with one record each get 50% and 50%, summing
to 100. -/
theorem club_percentages_sum_to_100_witness :
    (0 < (calculate_stats jp0
        [Json.obj [("club_id", Json.str "c1")], Json.obj [("club_id", Json.str "c2")]]
        [("c1", "C1"), ("c2", "C2")]).total_records) ∧
      (((calculate_stats jp0
          [Json.obj [("club_id", Json.str "c1")], Json.obj [("club_id", Json.str "c2")]]
          [("c1", "C1"), ("c2", "C2")]).club_stats).map ClubStats.percentage).sum = 100 := by
  refine ⟨by decide, ?_⟩
  exact (club_percentages_sum_to_100 jp0
    [Json.obj [("club_id", Json.str "c1")], Json.obj [("club_id", Json.str "c2")]]
    [("c1", "C1"), ("c2", "C2")]).2 (by decide)

/-- C3 counterexample: on `{text_aura: {percent: "abc"}}` the CSV extractor
returns the non-empty string `"abc"` while the Aggregator extracts no
percent, so "non-empty exactly when `Some`" is false. -/
theorem extract_equivalence_counterexample :
    CsvGenerator.extract_aura_percent jp0
        [("text_aura", Json.obj [("percent", Json.str "abc")])] ≠ "" ∧
      extract_percent_value jp0
        [("text_aura", Json.obj [("percent", Json.str "abc")])] = none := by
  exact ⟨by decide, by rfl⟩

/-- When the shared percent-field handling extracts `p`, the CSV-side
handling yields a string that parses back to `p` or is the rendering of
`p`. -/
theorem percentField_refines (percent : Json) (p : ℚ)
    (h : percentFieldValue percent = some (some p)) :
    ∃ s, CsvGenerator.percentFieldString percent = some s ∧
      (parseF64 s = some p ∨ s = numToString p) := by
  cases percent with
  | num q =>
      have hq : q = p := by
        simpa [percentFieldValue, Json.asStr, Json.asF64] using h
      exact ⟨numToString q,
        by simp [CsvGenerator.percentFieldString, Json.asStr, Json.asF64],
        Or.inr (by rw [hq])⟩
  | str s2 =>
      refine ⟨trimEndPercent (trimAscii s2),
        by simp [CsvGenerator.percentFieldString, Json.asStr], Or.inl ?_⟩
      simpa [percentFieldValue, Json.asStr] using h
  | null => simp [percentFieldValue, Json.asStr, Json.asF64] at h
  | bool b => simp [percentFieldValue, Json.asStr, Json.asF64] at h
  | arr l => simp [percentFieldValue, Json.asStr, Json.asF64] at h
  | obj l => simp [percentFieldValue, Json.asStr, Json.asF64] at h

/-- The two percent-field handlers fall through together. -/
theorem percentField_none (percent : Json) (h : percentFieldValue percent = none) :
    CsvGenerator.percentFieldString percent = none := by
  cases percent <;>
    simp_all [percentFieldValue, CsvGenerator.percentFieldString, Json.asStr, Json.asF64]

/-- The two `text_aura` stages fall through together. -/
theorem textAura_none (jsonParse : String → Option Json) (record : List (String × Json))
    (h : textAuraValue jsonParse record = none) :
    CsvGenerator.textAuraString jsonParse record = none := by
  cases h1 : getField record "text_aura" with
  | none => simp [CsvGenerator.textAuraString, h1]
  | some ta =>
      cases h2 : ta.asObj with
      | some aObj =>
          cases h3 : getField aObj "percent" with
          | some percent =>
              have hv : percentFieldValue percent = none := by
                simpa [textAuraValue, h1, h2, h3] using h
              simp [CsvGenerator.textAuraString, h1, h2, h3, percentField_none percent hv]
          | none => simp [CsvGenerator.textAuraString, h1, h2, h3]
      | none =>
          cases h4 : ta.asStr with
          | none => simp [CsvGenerator.textAuraString, h1, h2, h4]
          | some astr =>
              by_cases h5 : astr.isEmpty
              · simp [CsvGenerator.textAuraString, h1, h2, h4, h5]
              · cases h6 : jsonParse astr with
                | none => simp [CsvGenerator.textAuraString, h1, h2, h4, h5, h6]
                | some parsed =>
                    cases h7 : parsed.asObj with
                    | none => simp [CsvGenerator.textAuraString, h1, h2, h4, h5, h6, h7]
                    | some pobj =>
                        cases h8 : getField pobj "percent" with
                        | none =>
                            simp [CsvGenerator.textAuraString, h1, h2, h4, h5, h6, h7, h8]
                        | some percent =>
                            have hv : percentFieldValue percent = none := by
                              simpa [textAuraValue, h1, h2, h4, h5, h6, h7, h8] using h
                            simp [CsvGenerator.textAuraString, h1, h2, h4, h5, h6, h7, h8,
                              percentField_none percent hv]

/-- When the `text_aura` stage extracts `p`, the CSV-side stage yields a
string denoting `p`. -/
theorem textAura_some (jsonParse : String → Option Json) (record : List (String × Json))
    (p : ℚ) (h : textAuraValue jsonParse record = some (some p)) :
    ∃ s, CsvGenerator.textAuraString jsonParse record = some s ∧
      (parseF64 s = some p ∨ s = numToString p) := by
  cases h1 : getField record "text_aura" with
  | none => exfalso; simp [textAuraValue, h1] at h
  | some ta =>
      cases h2 : ta.asObj with
      | some aObj =>
          cases h3 : getField aObj "percent" with
          | some percent =>
              have hv : percentFieldValue percent = some (some p) := by
                simpa [textAuraValue, h1, h2, h3] using h
              obtain ⟨s, hs, hsp⟩ := percentField_refines percent p hv
              exact ⟨s, by simp [CsvGenerator.textAuraString, h1, h2, h3, hs], hsp⟩
          | none => exfalso; simp [textAuraValue, h1, h2, h3] at h
      | none =>
          cases h4 : ta.asStr with
          | none => exfalso; simp [textAuraValue, h1, h2, h4] at h
          | some astr =>
              by_cases h5 : astr.isEmpty
              · exfalso; simp [textAuraValue, h1, h2, h4, h5] at h
              · cases h6 : jsonParse astr with
                | none => exfalso; simp [textAuraValue, h1, h2, h4, h5, h6] at h
                | some parsed =>
                    cases h7 : parsed.asObj with
                    | none => exfalso; simp [textAuraValue, h1, h2, h4, h5, h6, h7] at h
                    | some pobj =>
                        cases h8 : getField pobj "percent" with
                        | none =>
                            exfalso
                            simp [textAuraValue, h1, h2, h4, h5, h6, h7, h8] at h
                        | some percent =>
                            have hv : percentFieldValue percent = some (some p) := by
                              simpa [textAuraValue, h1, h2, h4, h5, h6, h7, h8] using h
                            obtain ⟨s, hs, hsp⟩ := percentField_refines percent p hv
                            exact ⟨s,
                              by simp [CsvGenerator.textAuraString, h1, h2, h4, h5, h6, h7,
                                h8, hs], hsp⟩

/-- When the Aggregator's `aura` fallback extracts `p`, the CSV-side fallback
yields a string denoting `p`. -/
theorem auraFallback_refines (record : List (String × Json)) (p : ℚ)
    (h : auraFallbackValue record = some p) :
    parseF64 (CsvGenerator.auraFallbackString record) = some p ∨
      CsvGenerator.auraFallbackString record = numToString p := by
  cases h1 : getField record "aura" with
  | none => exfalso; simp [auraFallbackValue, h1] at h
  | some aura =>
      cases h2 : aura.asObj with
      | some aObj =>
          cases h3 : getField aObj "percent" with
          | some percent =>
              cases hpf : percentFieldValue percent with
              | none => exfalso; simp [auraFallbackValue, h1, h2, h3, hpf] at h
              | some r =>
                  have hr : r = some p := by
                    simpa [auraFallbackValue, h1, h2, h3, hpf] using h
                  obtain ⟨s, hs, hsp⟩ := percentField_refines percent p (by rw [hpf, hr])
                  have hout : CsvGenerator.auraFallbackString record = s := by
                    simp [CsvGenerator.auraFallbackString, h1, h2, h3, hs]
                  rw [hout]
                  exact hsp
          | none => exfalso; simp [auraFallbackValue, h1, h2, h3] at h
      | none => exfalso; simp [auraFallbackValue, h1, h2] at h

/-- C3 (amended): whenever the Aggregator extracts percent `p`, the CSV
extractor emits a string denoting the same value — it parses back to exactly
`p`, or is the number rendering of exactly `p`.  The original biconditional
fails (see the counterexample): the CSV extractor can emit a non-empty string
where the Aggregator extracts nothing. -/
theorem extract_aura_percent_refines (jsonParse : String → Option Json)
    (record : List (String × Json)) (p : ℚ)
    (h : extract_percent_value jsonParse record = some p) :
    parseF64 (CsvGenerator.extract_aura_percent jsonParse record) = some p ∨
      CsvGenerator.extract_aura_percent jsonParse record = numToString p := by
  cases hta : textAuraValue jsonParse record with
  | some r =>
      cases r with
      | none => exfalso; simp [extract_percent_value, hta] at h
      | some q =>
          have hq : q = p := by simpa [extract_percent_value, hta] using h
          subst hq
          obtain ⟨s, hs, hsp⟩ := textAura_some jsonParse record q hta
          have hout : CsvGenerator.extract_aura_percent jsonParse record = s := by
            simp [CsvGenerator.extract_aura_percent, hs]
          rw [hout]
          exact hsp
  | none =>
      have hf : auraFallbackValue record = some p := by
        simpa [extract_percent_value, hta] using h
      have hout : CsvGenerator.extract_aura_percent jsonParse record =
          CsvGenerator.auraFallbackString record := by
        simp [CsvGenerator.extract_aura_percent, textAura_none jsonParse record hta]
      rw [hout]
      exact auraFallback_refines record p hf

/-- Witness for the amended C3 at `{text_aura: {percent: 91}}`. -/
theorem extract_aura_percent_refines_witness :
    extract_percent_value jp0 [("text_aura", Json.obj [("percent", Json.num 91)])] =
        some 91 ∧
      (parseF64 (CsvGenerator.extract_aura_percent jp0
            [("text_aura", Json.obj [("percent", Json.num 91)])]) = some 91 ∨
        CsvGenerator.extract_aura_percent jp0
            [("text_aura", Json.obj [("percent", Json.num 91)])] = numToString 91) := by
  refine ⟨by rfl, ?_⟩
  exact extract_aura_percent_refines jp0
    [("text_aura", Json.obj [("percent", Json.num 91)])] 91 (by rfl)

/-- Hoisting the accumulator out of a string-concatenation fold. -/
theorem foldl_append_hoist :
    ∀ (l : List String) (a : String),
      l.foldl (fun x y => x ++ y) a = a ++ l.foldl (fun x y => x ++ y) "" := by
  intro l
  induction l with
  | nil => intro a; exact (String.append_empty a).symm
  | cons s l ih =>
      intro a
      show l.foldl (fun x y => x ++ y) (a ++ s) = a ++ l.foldl (fun x y => x ++ y) ("" ++ s)
      rw [ih (a ++ s), ih ("" ++ s), String.empty_append, String.append_assoc]

/-- `String.join` distributes over `cons`. -/
theorem string_join_cons (s : String) (l : List String) :
    String.join (s :: l) = s ++ String.join l := by
  show l.foldl (fun x y => x ++ y) ("" ++ s) = s ++ String.join l
  rw [foldl_append_hoist l ("" ++ s), String.empty_append]
  rfl

/-- The CSV row loop appends one rendered record per object-shaped element. -/
theorem generate_loop_spec (jsonParse : String → Option Json)
    (club_names : List (String × String)) :
    ∀ (data : List Json) (out : String),
      data.foldl (fun out record =>
        match record.asObj with
        | some obj => out ++ CsvGenerator.writeRecord (CsvGenerator.renderRow jsonParse club_names obj)
        | none => out) out =
      out ++ String.join (data.filterMap (fun record =>
        record.asObj.map (fun obj =>
          CsvGenerator.writeRecord (CsvGenerator.renderRow jsonParse club_names obj)))) := by
  intro data
  induction data with
  | nil => intro out; exact (String.append_empty out).symm
  | cons r l ih =>
      intro out
      cases hobj : r.asObj with
      | none => simp only [List.foldl_cons, List.filterMap_cons, hobj, Option.map_none', ih]
      | some obj =>
          simp only [List.foldl_cons, List.filterMap_cons, hobj, Option.map_some', ih,
            string_join_cons, String.append_assoc]

/-- The record of the spec's CSV round-trip test. -/
def recC8 : Json := Json.obj [
  ("phone", Json.str "79990001122"), ("name", Json.str "A"),
  ("date_visit", Json.str "2024-01-01 10:00:00+0000"), ("duration", Json.num 30),
  ("club_id", Json.str "c1"), ("text_aura", Json.obj [("percent", Json.str "91%")]),
  ("birth_date", Json.str "1990-01-01"), ("sex", Json.str "M")]

/-- C8: `CsvGenerator::generate` writes the BOM, the fixed 8-column header,
then exactly one data row per object-shaped record (non-objects skipped); and
on the spec's round-trip record with lookup `{c1: ClubOne}` the single data
row is `79990001122;A;2024-01-01 13:00:00;30;ClubOne;91;1990-01-01;M` (the
visit date moved from UTC to Moscow time). -/
theorem csv_generate_spec :
    (∀ (jsonParse : String → Option Json) (data : List Json)
        (club_names : List (String × String)),
      CsvGenerator.generate jsonParse data club_names =
        CsvGenerator.bom ++ CsvGenerator.writeRecord CsvGenerator.headers ++
          String.join (data.filterMap (fun record =>
            record.asObj.map (fun obj =>
              CsvGenerator.writeRecord
                (CsvGenerator.renderRow jsonParse club_names obj))))) ∧
    (∀ s, parseWithTz s = none → CsvGenerator.convert_to_moscow_time s = s) ∧
    (∀ (jsonParse : String → Option Json) (club_names : List (String × String))
        (obj : List (String × Json)) (id : String),
      (getField obj "club_id").bind Json.asStr = some id →
      lookupName club_names id = none →
      (CsvGenerator.renderRow jsonParse club_names obj)[4]? = some id) ∧
    CsvGenerator.generate jp0 [recC8] [("c1", "ClubOne")] =
      CsvGenerator.bom ++
        "Телефон;Имя;Дата визита;Продолжительность;Комплекс;Аура;Дата рождения;Пол\n" ++
        "79990001122;A;2024-01-01 13:00:00;30;ClubOne;91;1990-01-01;M\n" := by
  refine ⟨?_, ?_, ?_, ?_⟩
  · intro jsonParse data club_names
    cases data with
    | nil =>
        show CsvGenerator.bom ++ CsvGenerator.writeRecord CsvGenerator.headers = _
        rw [List.filterMap_nil]
        show _ = CsvGenerator.bom ++ CsvGenerator.writeRecord CsvGenerator.headers ++ ""
        rw [String.append_empty]
    | cons r l =>
        show CsvGenerator.bom ++ CsvGenerator.writeRecord CsvGenerator.headers ++
            (r :: l).foldl (fun out record =>
              match record.asObj with
              | some obj =>
                  out ++ CsvGenerator.writeRecord
                    (CsvGenerator.renderRow jsonParse club_names obj)
              | none => out) "" = _
        rw [generate_loop_spec jsonParse club_names (r :: l) "", String.empty_append]
  · intro str h
    simp [CsvGenerator.convert_to_moscow_time, h]
  · intro jsonParse club_names obj id h1 h2
    simp [CsvGenerator.renderRow, h1, h2]
  · rfl

/-- Witness for C8's conditional parts: raw passthrough of an unparsable
visit date, and raw `club_id` emission for a club missing from the lookup. -/
theorem csv_generate_spec_witness :
    (parseWithTz "oops" = none ∧ CsvGenerator.convert_to_moscow_time "oops" = "oops") ∧
      ((getField [("club_id", Json.str "cX")] "club_id").bind Json.asStr = some "cX" ∧
        lookupName [] "cX" = none ∧
        (CsvGenerator.renderRow jp0 [] [("club_id", Json.str "cX")])[4]? = some "cX") := by
  refine ⟨⟨by rfl, csv_generate_spec.2.1 "oops" (by rfl)⟩,
    by rfl, by rfl, csv_generate_spec.2.2.1 jp0 [] [("club_id", Json.str "cX")] "cX"
      (by rfl) (by rfl)⟩
